import Mathlib

/-!
Verification development for the `osm` package of gen1us2k/ariadna
(file `osm/osm.go`): the administrative-hierarchy builder
(`areasToPolygons`, `relationToPolygon`, `wayToPolygon`), its debug
export, and the indexing pipeline's wait/error semantics
(`Start`/`WaitStop`).

Machine integers and floating-point coordinates are modelled as `Int`;
Go maps are modelled as functions into `Option`, with `Option.getD` of
the zero value standing for Go's zero-value lookup of a missing key.
A Go `panic` (slice index out of range) is modelled by returning `none`
from the build, which is otherwise total.
-/

/-- A geographic point, mirroring `geo.Point` from the geometry library
(latitude and longitude, created by `geo.NewPoint(lat, lng)`). -/
structure Point where
  lat : Int
  lng : Int
deriving DecidableEq, Repr

/-- Mirrors `geo.NewPoint(lat, lng)`. -/
def NewPoint (lat lng : Int) : Point := ⟨lat, lng⟩

/-- Mirrors `geo.Point.Lat()`. -/
def Point.Lat (p : Point) : Int := p.lat

/-- Mirrors `geo.Point.Lng()`. -/
def Point.Lng (p : Point) : Int := p.lng

/-- A raw OSM node as used by `osm.go` (`gosmparse.Node`): only its
`Lat`/`Lon` coordinates are read by the code under verification. -/
structure Node where
  Lat : Int
  Lon : Int
deriving DecidableEq, Repr

/-- A raw OSM way as used by `osm.go` (`gosmparse.Way`): an ordered list
of node references plus string tags.  Go's `Tags["k"]` on a missing key
returns `""`, so tags are modelled as a total function with default `""`. -/
structure Way where
  NodeIDs : List Int
  Tags : String → String

/-- A relation member as used by `osm.go` (`gosmparse.RelationMember`):
only its `ID` is read. -/
structure Member where
  ID : Int

/-- A boundary relation as used by `osm.go` (`gosmparse.Relation`):
an ordered member list plus string tags. -/
structure Relation where
  Members : List Member
  Tags : String → String

/-- Modelled from the spec: the raw-entity accumulator
(`handler.Handler`, a package of this repository whose source is not
under `src/`).  Per the spec (§2, §6) it exposes, read-only: resolved
points by identifier, fully-resolved paths by identifier, and boundary
relations pre-classified into country / settlement / district groups.
`osm.go` accesses exactly the fields `Nodes`, `FullWays`, `Countries`,
`Areas` and `Districts` (districts are ways: they are fed to
`wayToPolygon`).  The classified groups are modelled as lists (a defined
iteration order, the spec's §9 recommendation). -/
structure Handler where
  Nodes : Int → Option Node
  FullWays : Int → Option Way
  Countries : List Relation
  Areas : List Relation
  Districts : List Way

/-- Modelled from the spec: the configuration (`config.Ariadna`, not
under `src/`); only `ImportCountry` is read by the hierarchy builder. -/
structure Ariadna where
  ImportCountry : String

/-- The derived `district` entity from `osm.go`. -/
structure district where
  name : String
  geom : List Point
deriving DecidableEq, Repr

/-- The derived `city` (settlement) entity from `osm.go`. -/
structure city where
  name : String
  placeType : String
  geom : List Point
  districts : List district
deriving DecidableEq, Repr

/-- The derived `country` entity from `osm.go`. -/
structure country where
  name : String
  geom : List Point
  towns : List city
deriving DecidableEq, Repr

/-- The plain-text debug export written by `areasToPolygons`
(`os.Create(cn.Tags["name"])` followed by one `f.Write` per ring point):
the file name and the sequence of written strings, one per point. -/
structure DebugFile where
  name : String
  content : List String
deriving DecidableEq, Repr

/-! ## Geometry

Modelled from the spec (§3, §4.1): the geometry library
(`github.com/kellydunn/golang-geo`) is not among the sources, so
`Polygon.Contains` is modelled from the spec's words — a standard
ray-casting point-in-polygon test over the ring's edges that returns a
deterministic `false` for degenerate rings of fewer than 3 points. -/

/-- Modelled from the spec: does the edge from `a` to `b` cross the
horizontal ray cast from `p` (standard crossing-number edge test,
written division-free over `Int`)? -/
def rayCrosses (p a b : Point) : Bool :=
  (decide (a.lat > p.lat) != decide (b.lat > p.lat)) &&
  (if b.lat > a.lat then
    decide ((p.lng - a.lng) * (b.lat - a.lat) < (b.lng - a.lng) * (p.lat - a.lat))
  else
    decide ((p.lng - a.lng) * (b.lat - a.lat) > (b.lng - a.lng) * (p.lat - a.lat)))

/-- The ring's edge list, each vertex paired with its cyclic successor. -/
def ringEdges : List Point → List (Point × Point)
  | [] => []
  | a :: rest => (a :: rest).zip (rest ++ [a])

/-- Modelled from the spec: `geo.Polygon.Contains` — ray-casting
containment, with a deterministic `false` for degenerate rings
(fewer than 3 points), as §4.1 requires. -/
def Contains (ring : List Point) (p : Point) : Bool :=
  if ring.length < 3 then false
  else (ringEdges ring).foldl (fun c e => if rayCrosses p e.1 e.2 then !c else c) false

/-! ## Polygon assembly (`wayToPolygon`, `relationToPolygon`) -/

/-- The point built for one node reference inside the assembly loops:
`node := i.handler.Nodes[nodeID]` (Go zero value on a missing key)
followed by `geo.NewPoint(node.Lat, node.Lon)`. -/
def nodePoint (h : Handler) (nid : Int) : Point :=
  let n := (h.Nodes nid).getD ⟨0, 0⟩
  NewPoint n.Lat n.Lon

/-- The `for _, nodeID := range way.NodeIDs` append loop shared by
`wayToPolygon` and the way branch of `relationToPolygon`
(osm.go:161-164, osm.go:172-175), with `pts` the `points` slice
accumulated so far. -/
def wayLoop (h : Handler) : List Int → List Point → List Point
  | [], pts => pts
  | nid :: rest, pts => wayLoop h rest (pts ++ [nodePoint h nid])

/-- `wayToPolygon` (osm.go:170-177): one point appended per node
reference, unresolved references contributing the zero node's point. -/
def wayToPolygon (h : Handler) (w : Way) : List Point :=
  wayLoop h w.NodeIDs []

/-- The Go zero value of `gosmparse.Way`, produced by a lookup of a
missing key in `i.handler.FullWays`. -/
def zeroWay : Way := ⟨[], fun _ => ""⟩

/-- The `for _, member := range area.Members` loop of
`relationToPolygon` (osm.go:154-167): a member resolving as a node
appends that single point; otherwise the member is looked up in
`FullWays` (zero `Way` when missing) and its node list is appended by
the shared way loop. -/
def relLoop (h : Handler) : List Member → List Point → List Point
  | [], pts => pts
  | m :: rest, pts =>
    match h.Nodes m.ID with
    | some n => relLoop h rest (pts ++ [NewPoint n.Lat n.Lon])
    | none => relLoop h rest (wayLoop h ((h.FullWays m.ID).getD zeroWay).NodeIDs pts)

/-- `relationToPolygon` (osm.go:152-169). -/
def relationToPolygon (h : Handler) (rel : Relation) : List Point :=
  relLoop h rel.Members []

/-! ## Debug export (osm.go:116-123) -/

/-- The string written for one ring point:
`fmt.Sprintf("%v,%v\n", point.Lng(), point.Lat())`. -/
def pointLine (p : Point) : String :=
  toString p.Lng ++ "," ++ toString p.Lat ++ "\n"

/-- The `for _, point := range countryPolygon.Points()` write loop
(osm.go:120-122), `out` being the sequence of writes so far. -/
def exportLoop : List Point → List String → List String
  | [], out => out
  | p :: rest, out => exportLoop rest (out ++ [pointLine p])

/-- The full contents written to a country's debug file. -/
def exportContent (ring : List Point) : List String :=
  exportLoop ring []

/-! ## Tree construction (`areasToPolygons`, osm.go:108-151)

Go's `poly.Points()[1]` panics (index out of range) when the ring has
fewer than 2 points; the panic is modelled by `none`. -/

/-- The `district` literal of osm.go:138. -/
def mkDistrict (h : Handler) (w : Way) : district :=
  ⟨w.Tags "name", wayToPolygon h w⟩

/-- The `for _, dist := range i.handler.Districts` loop
(osm.go:135-141): each district way is assembled, its ring's second
point is read (panic — `none` — when the ring is shorter), and the
district is appended to the city's list iff the settlement polygon
contains that point. -/
def districtsLoop (h : Handler) (areaPolygon : List Point) :
    List Way → List district → Option (List district)
  | [], ds => some ds
  | w :: rest, ds =>
    match (wayToPolygon h w)[1]? with
    | none => none
    | some p =>
      if Contains areaPolygon p then
        districtsLoop h areaPolygon rest (ds ++ [mkDistrict h w])
      else
        districtsLoop h areaPolygon rest ds

/-- The `for _, area := range i.handler.Areas` loop (osm.go:128-146):
each settlement relation is assembled into a `city` with its attached
districts, then appended to the country's towns iff the country polygon
contains the second point of the settlement's ring (read after the
district loop, panicking — `none` — when the ring is shorter). -/
def areasLoop (h : Handler) (countryPolygon : List Point) :
    List Relation → List city → Option (List city)
  | [], cs => some cs
  | a :: rest, cs =>
    match districtsLoop h (relationToPolygon h a) h.Districts [] with
    | none => none
    | some ds =>
      match (relationToPolygon h a)[1]? with
      | none => none
      | some q =>
        if Contains countryPolygon q then
          areasLoop h countryPolygon rest
            (cs ++ [⟨a.Tags "name", a.Tags "place", relationToPolygon h a, ds⟩])
        else
          areasLoop h countryPolygon rest cs

/-- The `for _, cn := range i.handler.Countries` loop (osm.go:110-149):
relations whose name tag differs from the configured import country are
skipped (`continue`); for a match, the country polygon is assembled, its
debug file is written, the settlement loop runs, and the completed
country is appended. -/
def countriesLoop (h : Handler) (cfg : Ariadna) :
    List Relation → List country → List DebugFile →
    Option (List country × List DebugFile)
  | [], cs, fs => some (cs, fs)
  | cn :: rest, cs, fs =>
    if cn.Tags "name" == cfg.ImportCountry then
      match areasLoop h (relationToPolygon h cn) h.Areas [] with
      | none => none
      | some towns =>
        countriesLoop h cfg rest
          (cs ++ [⟨cn.Tags "name", relationToPolygon h cn, towns⟩])
          (fs ++ [⟨cn.Tags "name", exportContent (relationToPolygon h cn)⟩])
    else
      countriesLoop h cfg rest cs fs

/-- `areasToPolygons` (osm.go:108-151), returning the built country list
together with the written debug files, or `none` when the Go code would
panic. -/
def areasToPolygons (h : Handler) (cfg : Ariadna) :
    Option (List country × List DebugFile) :=
  countriesLoop h cfg h.Countries [] []

/-! ## Indexing pipeline (osm.go:84-93)

Modelled from the spec (§4.3, §5): the three push tasks
(`crossRoadsToElastic`, `nodesToElastic`, `waysToElastic`) live in parts
of the repository that are not under `src/`; each task's outcome is an
`Option String` (`none` = success, `some msg` = error).  The
`errgroup.Group.Wait` join returns, after every task has finished, the
first reported error.  `Start` (osm.go:84-87) launches exactly these
three tasks. -/

/-- Modelled from the spec: the task list spawned by `Start`
(osm.go:84-87) — the three independent push tasks, identified by their
eventual outcomes. -/
def Start (crossRoads nodes ways : Option String) : List (Option String) :=
  [crossRoads, nodes, ways]

/-- Modelled from the spec: `errgroup.Group.Wait` — blocks until every
task has finished (hence a function of the complete outcome list) and
returns the first reported error, if any. -/
def egWait (results : List (Option String)) : Option String :=
  results.findSome? fun r => r

/-- `WaitStop` (osm.go:91-93): calls `i.eg.Wait()` as a bare statement —
the group's error is computed and then discarded; `WaitStop` itself
returns nothing. -/
def WaitStop (results : List (Option String)) : Unit :=
  let _discarded := egWait results
  ()

/-! ## Declarative description of a successful build

The loops above are characterized, for inputs on which the Go code does
not panic, by the following filter/map descriptions. -/

/-- The representative point used by the containment heuristic: the
ring's second point (`Points()[1]`), with a placeholder default that is
only reached on rings the Go code would panic on. -/
def secondPointD (ring : List Point) : Point :=
  (ring[1]?).getD ⟨0, 0⟩

/-- The districts attached to a settlement polygon `ap`: exactly the
district ways whose assembled ring's second point `ap` contains. -/
def attachedDistricts (h : Handler) (ap : List Point) (ws : List Way) : List district :=
  (ws.filter fun w => Contains ap (secondPointD (wayToPolygon h w))).map (mkDistrict h)

/-- The `city` value the settlement loop builds for relation `a`. -/
def mkCity (h : Handler) (a : Relation) : city :=
  ⟨a.Tags "name", a.Tags "place", relationToPolygon h a,
   attachedDistricts h (relationToPolygon h a) h.Districts⟩

/-- The settlements attached to a country polygon `cp`: exactly the
settlement relations whose assembled ring's second point `cp` contains. -/
def attachedCities (h : Handler) (cp : List Point) (rels : List Relation) : List city :=
  (rels.filter fun a => Contains cp (secondPointD (relationToPolygon h a))).map (mkCity h)

/-- The `country` value the country loop builds for relation `cn`. -/
def mkCountry (h : Handler) (cn : Relation) : country :=
  ⟨cn.Tags "name", relationToPolygon h cn,
   attachedCities h (relationToPolygon h cn) h.Areas⟩

/-- The debug file written for country relation `cn`. -/
def mkFile (h : Handler) (cn : Relation) : DebugFile :=
  ⟨cn.Tags "name", exportContent (relationToPolygon h cn)⟩

/-- The country relations the builder materializes: those whose name tag
equals the configured import country. -/
def matchedCountries (h : Handler) (cfg : Ariadna) : List Relation :=
  h.Countries.filter fun cn => cn.Tags "name" == cfg.ImportCountry

/-- The contribution of one relation member to the assembled ring:
a resolved node contributes its single point; otherwise the member's
`FullWays` entry (Go zero value when missing, hence an empty
contribution) contributes one point per node reference. -/
def memberPoints (h : Handler) (m : Member) : List Point :=
  match h.Nodes m.ID with
  | some n => [NewPoint n.Lat n.Lon]
  | none => ((h.FullWays m.ID).getD zeroWay).NodeIDs.map (nodePoint h)

/-! ## Concrete fixtures

A small accumulator: one country square "X" (side 200), two settlement
relations "S1"/"S2" sharing the same inner square (side 10), and one
district triangle "D" whose second ring point (5,5) lies inside that
square. -/

/-- Node table of the main fixture. -/
def exNodes : Int → Option Node := fun k =>
  if k = 1 then some ⟨-100, -100⟩
  else if k = 2 then some ⟨-100, 100⟩
  else if k = 3 then some ⟨100, 100⟩
  else if k = 4 then some ⟨100, -100⟩
  else if k = 5 then some ⟨0, 0⟩
  else if k = 6 then some ⟨0, 10⟩
  else if k = 7 then some ⟨10, 10⟩
  else if k = 8 then some ⟨10, 0⟩
  else if k = 9 then some ⟨4, 4⟩
  else if k = 10 then some ⟨5, 5⟩
  else if k = 11 then some ⟨6, 4⟩
  else none

/-- A tag table carrying only a name. -/
def nameTag (v : String) : String → String :=
  fun k => if k = "name" then v else ""

/-- A tag table carrying a name and a place type. -/
def cityTags (v : String) : String → String :=
  fun k => if k = "name" then v else if k = "place" then "city" else ""

/-- Path table of the main fixture: way 100 is the country square,
way 101 the settlement square. -/
def exFullWays : Int → Option Way := fun k =>
  if k = 100 then some ⟨[1, 2, 3, 4], fun _ => ""⟩
  else if k = 101 then some ⟨[5, 6, 7, 8], fun _ => ""⟩
  else none

/-- The country relation "X" (one path member). -/
def relX : Relation := ⟨[⟨100⟩], nameTag "X"⟩

/-- Settlement relation "S1". -/
def relS1 : Relation := ⟨[⟨101⟩], cityTags "S1"⟩

/-- Settlement relation "S2" — same geometry as "S1". -/
def relS2 : Relation := ⟨[⟨101⟩], cityTags "S2"⟩

/-- The district way "D": triangle (4,4), (5,5), (6,4). -/
def wayD : Way := ⟨[9, 10, 11], nameTag "D"⟩

/-- The main fixture accumulator. -/
def exHandler : Handler := ⟨exNodes, exFullWays, [relX], [relS1, relS2], [wayD]⟩

/-- Configuration importing country "X". -/
def cfgX : Ariadna := ⟨"X"⟩

/-- The value `areasToPolygons` computes on the main fixture. -/
def exRes : List country × List DebugFile :=
  ((matchedCountries exHandler cfgX).map (mkCountry exHandler),
   (matchedCountries exHandler cfgX).map (mkFile exHandler))

/-- The district value built for "D". -/
def dD : district := ⟨"D", [NewPoint 4 4, NewPoint 5 5, NewPoint 6 4]⟩

/-! ## Characterization lemmas -/

/-- A ring with more than one point has `ring[1]? = some` of its second
point, so the Go index does not panic there. -/
theorem second_get (l : List Point) (hl : 1 < l.length) :
    l[1]? = some (secondPointD l) := by
  match l with
  | [] => simp at hl
  | [_] => simp at hl
  | _ :: _ :: _ => simp [secondPointD]

/-- The shared node-append loop is the map of `nodePoint` appended to
the accumulated points. -/
theorem wayLoop_eq (h : Handler) :
    ∀ (l : List Int) (pts : List Point),
      wayLoop h l pts = pts ++ l.map (nodePoint h)
  | [], pts => by simp [wayLoop]
  | nid :: rest, pts => by
    rw [wayLoop, wayLoop_eq h rest]
    simp

/-- `wayToPolygon` produces one point per node reference, in order. -/
theorem wayToPolygon_eq (h : Handler) (w : Way) :
    wayToPolygon h w = w.NodeIDs.map (nodePoint h) := by
  rw [wayToPolygon, wayLoop_eq]
  rfl

/-- The member loop concatenates, in member order, each member's
resolved contribution. -/
theorem relLoop_eq (h : Handler) :
    ∀ (ms : List Member) (pts : List Point),
      relLoop h ms pts = pts ++ ms.flatMap (memberPoints h)
  | [], pts => by simp [relLoop]
  | m :: rest, pts => by
    rw [relLoop]
    cases hn : h.Nodes m.ID with
    | some n => simp [relLoop_eq h rest, memberPoints, hn]
    | none => simp [relLoop_eq h rest, wayLoop_eq, memberPoints, hn]

/-- `relationToPolygon` is the member-ordered concatenation of member
contributions. -/
theorem relationToPolygon_eq (h : Handler) (rel : Relation) :
    relationToPolygon h rel = rel.Members.flatMap (memberPoints h) := by
  rw [relationToPolygon, relLoop_eq]
  rfl

/-- The export loop writes one formatted line per ring point, in ring
order. -/
theorem exportLoop_eq :
    ∀ (l : List Point) (out : List String),
      exportLoop l out = out ++ l.map pointLine
  | [], out => by simp [exportLoop]
  | p :: rest, out => by
    rw [exportLoop, exportLoop_eq rest]
    simp

/-- `exportContent` is one line per point. -/
theorem exportContent_eq (ring : List Point) :
    exportContent ring = ring.map pointLine := by
  rw [exportContent, exportLoop_eq]
  rfl

/-- When every district ring has at least two points, the district loop
succeeds and appends exactly the districts whose second ring point the
settlement polygon contains. -/
theorem districtsLoop_eq (h : Handler) (ap : List Point) :
    ∀ (ws : List Way) (ds : List district),
      (∀ w ∈ ws, 1 < (wayToPolygon h w).length) →
      districtsLoop h ap ws ds = some (ds ++ attachedDistricts h ap ws)
  | [], ds, _ => by simp [districtsLoop, attachedDistricts]
  | w :: rest, ds, hw => by
    have hlen := hw w (by simp)
    have hrest : ∀ w' ∈ rest, 1 < (wayToPolygon h w').length :=
      fun w' hw' => hw w' (by simp [hw'])
    simp only [districtsLoop, second_get _ hlen]
    by_cases hc : Contains ap (secondPointD (wayToPolygon h w)) = true
    · rw [if_pos hc, districtsLoop_eq h ap rest _ hrest]
      simp [attachedDistricts, List.filter_cons, hc]
    · rw [if_neg hc, districtsLoop_eq h ap rest ds hrest]
      simp [attachedDistricts, List.filter_cons, hc]

/-- When all rings are long enough, the settlement loop succeeds and
appends exactly the settlements whose second ring point the country
polygon contains, each carrying its attached districts. -/
theorem areasLoop_eq (h : Handler) (cp : List Point)
    (hD : ∀ w ∈ h.Districts, 1 < (wayToPolygon h w).length) :
    ∀ (rels : List Relation) (cs : List city),
      (∀ a ∈ rels, 1 < (relationToPolygon h a).length) →
      areasLoop h cp rels cs = some (cs ++ attachedCities h cp rels)
  | [], cs, _ => by simp [areasLoop, attachedCities]
  | a :: rest, cs, hr => by
    have hlen := hr a (by simp)
    have hrest : ∀ a' ∈ rest, 1 < (relationToPolygon h a').length :=
      fun a' ha' => hr a' (by simp [ha'])
    simp only [areasLoop, districtsLoop_eq h (relationToPolygon h a) h.Districts [] hD,
      second_get _ hlen, List.nil_append]
    by_cases hc : Contains cp (secondPointD (relationToPolygon h a)) = true
    · rw [if_pos hc, areasLoop_eq h cp hD rest _ hrest]
      simp [attachedCities, List.filter_cons, hc, mkCity]
    · rw [if_neg hc, areasLoop_eq h cp hD rest cs hrest]
      simp [attachedCities, List.filter_cons, hc]

/-- When all rings are long enough, the country loop succeeds and
appends one country and one debug file per matching country relation. -/
theorem countriesLoop_eq (h : Handler) (cfg : Ariadna)
    (hA : ∀ a ∈ h.Areas, 1 < (relationToPolygon h a).length)
    (hD : ∀ w ∈ h.Districts, 1 < (wayToPolygon h w).length) :
    ∀ (cns : List Relation) (cs : List country) (fs : List DebugFile),
      countriesLoop h cfg cns cs fs =
        some (cs ++ ((cns.filter fun cn => cn.Tags "name" == cfg.ImportCountry).map (mkCountry h)),
              fs ++ ((cns.filter fun cn => cn.Tags "name" == cfg.ImportCountry).map (mkFile h)))
  | [], cs, fs => by simp [countriesLoop]
  | cn :: rest, cs, fs => by
    by_cases hm : (cn.Tags "name" == cfg.ImportCountry) = true
    · simp only [countriesLoop, if_pos hm,
        areasLoop_eq h (relationToPolygon h cn) hD h.Areas [] hA, List.nil_append]
      rw [countriesLoop_eq h cfg hA hD rest _ _]
      simp [List.filter_cons, hm, mkCountry, mkFile]
    · simp only [countriesLoop, if_neg hm]
      rw [countriesLoop_eq h cfg hA hD rest cs fs]
      simp [List.filter_cons, hm]

/-- Full characterization of a successful build: when every settlement
ring and every district ring has at least two points, `areasToPolygons`
returns exactly one country (with its attached settlements and
districts) and one debug file per matching country relation. -/
theorem build_eq (h : Handler) (cfg : Ariadna)
    (hA : ∀ a ∈ h.Areas, 1 < (relationToPolygon h a).length)
    (hD : ∀ w ∈ h.Districts, 1 < (wayToPolygon h w).length) :
    areasToPolygons h cfg =
      some ((matchedCountries h cfg).map (mkCountry h),
            (matchedCountries h cfg).map (mkFile h)) := by
  rw [areasToPolygons, countriesLoop_eq h cfg hA hD h.Countries [] []]
  simp [matchedCountries]

/-- Membership in the attached-district list is exactly the containment
test on the district's second ring point. -/
theorem mem_attachedDistricts (h : Handler) (ap : List Point) (ws : List Way)
    (w : Way) (hw : w ∈ ws) :
    mkDistrict h w ∈ attachedDistricts h ap ws ↔
      Contains ap (secondPointD (wayToPolygon h w)) = true := by
  constructor
  · intro hm
    rcases List.mem_map.1 hm with ⟨w', hw', he⟩
    rcases List.mem_filter.1 hw' with ⟨_, hc⟩
    have hg : wayToPolygon h w' = wayToPolygon h w := congrArg district.geom he
    simp only [hg] at hc
    exact hc
  · intro hc
    exact List.mem_map.2 ⟨w, List.mem_filter.2 ⟨hw, hc⟩, rfl⟩

/-- Membership in the attached-settlement list is exactly the
containment test on the settlement's second ring point. -/
theorem mem_attachedCities (h : Handler) (cp : List Point) (rels : List Relation)
    (a : Relation) (ha : a ∈ rels) :
    mkCity h a ∈ attachedCities h cp rels ↔
      Contains cp (secondPointD (relationToPolygon h a)) = true := by
  constructor
  · intro hm
    rcases List.mem_map.1 hm with ⟨a', ha', he⟩
    rcases List.mem_filter.1 ha' with ⟨_, hc⟩
    have hg : relationToPolygon h a' = relationToPolygon h a := congrArg city.geom he
    simp only [hg] at hc
    exact hc
  · intro hc
    exact List.mem_map.2 ⟨a, List.mem_filter.2 ⟨ha, hc⟩, rfl⟩

/-! ## Further fixtures used by the counterexamples and witnesses -/

/-- A district way with a single-point ring (assembles to 1 point). -/
def wayB : Way := ⟨[9], nameTag "B"⟩

/-- Main fixture with the single-point district ring: the Go code
reaches `districtPolygon.Points()[1]` on a length-1 slice. -/
def h3 : Handler := ⟨exNodes, exFullWays, [relX], [relS1], [wayB]⟩

/-- A district way with a two-point (degenerate but indexable) ring. -/
def wayE : Way := ⟨[9, 10], nameTag "E"⟩

/-- Main fixture with the two-point district ring. -/
def h3b : Handler := ⟨exNodes, exFullWays, [relX], [relS1], [wayE]⟩

/-- A second country relation also named "X". -/
def relX2 : Relation := ⟨[⟨100⟩], nameTag "X"⟩

/-- Fixture with two country relations sharing the configured name. -/
def hDup : Handler := ⟨exNodes, exFullWays, [relX, relX2], [], []⟩

/-- The value `areasToPolygons` computes on `hDup`. -/
def resDup : List country × List DebugFile :=
  ((matchedCountries hDup cfgX).map (mkCountry hDup),
   (matchedCountries hDup cfgX).map (mkFile hDup))

/-- Node table for the relation-assembly fixture: P=(1,2), A=(3,4),
B=(5,6). -/
def h5nodes : Int → Option Node := fun k =>
  if k = 20 then some ⟨1, 2⟩
  else if k = 21 then some ⟨3, 4⟩
  else if k = 22 then some ⟨5, 6⟩
  else none

/-- Path table for the relation-assembly fixture: way 200 = (A, B). -/
def h5ways : Int → Option Way := fun k =>
  if k = 200 then some ⟨[21, 22], fun _ => ""⟩ else none

/-- The relation-assembly fixture accumulator. -/
def h5 : Handler := ⟨h5nodes, h5ways, [], [], []⟩

/-- Members: pointRef(P), an unresolved member (999), pathRef(A,B). -/
def rel5 : Relation := ⟨[⟨20⟩, ⟨999⟩, ⟨200⟩], nameTag "R"⟩

/-- An accumulator with no nodes and no ways at all. -/
def h6 : Handler := ⟨fun _ => none, fun _ => none, [], [], []⟩

/-- A way referencing only the unresolvable node 42. -/
def way42 : Way := ⟨[42], fun _ => ""⟩

/-! ## Claims -/

/-- C1: for every settlement and district processed by the tree
construction (on a run where the build completes), the child is attached
to its candidate parent iff the parent's polygon contains the second
point of the child's assembled ring: a settlement is in a country's
towns iff the country polygon contains the settlement ring's second
point, and a district is in a settlement's list iff that settlement's
polygon contains the district ring's second point. -/
theorem c1_attachment_iff (h : Handler) (cfg : Ariadna)
    (res : List country × List DebugFile)
    (hA : ∀ a ∈ h.Areas, 1 < (relationToPolygon h a).length)
    (hD : ∀ w ∈ h.Districts, 1 < (wayToPolygon h w).length)
    (hres : areasToPolygons h cfg = some res) :
    ∀ c ∈ res.1,
      (∀ a ∈ h.Areas,
        (mkCity h a ∈ c.towns ↔
          Contains c.geom (secondPointD (relationToPolygon h a)) = true)) ∧
      (∀ s ∈ c.towns, ∀ w ∈ h.Districts,
        (mkDistrict h w ∈ s.districts ↔
          Contains s.geom (secondPointD (wayToPolygon h w)) = true)) := by
  rw [build_eq h cfg hA hD, Option.some.injEq] at hres
  subst hres
  intro c hc
  rcases List.mem_map.1 hc with ⟨cn, hcn, rfl⟩
  refine ⟨fun a ha => ?_, fun s hs w hw => ?_⟩
  · exact mem_attachedCities h (relationToPolygon h cn) h.Areas a ha
  · have hs' : s ∈ attachedCities h (relationToPolygon h cn) h.Areas := hs
    rcases List.mem_map.1 hs' with ⟨a', ha', rfl⟩
    exact mem_attachedDistricts h (relationToPolygon h a') h.Districts w hw

/-- Witness for C1 on the main fixture. -/
theorem c1_attachment_iff_witness :
    (∀ a ∈ exHandler.Areas, 1 < (relationToPolygon exHandler a).length) ∧
    ∀ c ∈ exRes.1,
      (∀ a ∈ exHandler.Areas,
        (mkCity exHandler a ∈ c.towns ↔
          Contains c.geom (secondPointD (relationToPolygon exHandler a)) = true)) ∧
      (∀ s ∈ c.towns, ∀ w ∈ exHandler.Districts,
        (mkDistrict exHandler w ∈ s.districts ↔
          Contains s.geom (secondPointD (wayToPolygon exHandler w)) = true)) :=
  ⟨by decide, c1_attachment_iff exHandler cfgX exRes (by decide) (by decide) (by decide)⟩

/-- C2 (code bug): the blocking wait is a function of all three task
outcomes (it returns only after all finish) and the underlying group
wait computes the first reported error — but `WaitStop` (osm.go:91-93)
calls `i.eg.Wait()` as a bare statement, so the error is discarded and
the caller cannot distinguish a failed run from a successful one. -/
theorem c2_error_discarded :
    egWait (Start (some "boom") none none) = some "boom" ∧
    WaitStop (Start (some "boom") none none) = WaitStop (Start none none none) :=
  ⟨rfl, rfl⟩

/-- C3 counterexample: a single-point district ring (a degenerate ring
the claim says must be tolerated) makes the build fault — the Go code
panics with index out of range at `districtPolygon.Points()[1]`
(osm.go:137), modelled by `none`. -/
theorem c3_counterexample :
    (wayToPolygon h3 wayB).length = 1 ∧ areasToPolygons h3 cfgX = none :=
  ⟨rfl, rfl⟩

/-- C3 amended: containment against a degenerate ring (fewer than 3
points) degrades to a deterministic `false`, and the build completes
whenever every settlement and district ring has at least 2 points; but
rings with fewer than 2 points fault at the second-point index. -/
theorem c3_amended :
    (∀ (ring : List Point) (p : Point), ring.length < 3 → Contains ring p = false) ∧
    (∀ (h : Handler) (cfg : Ariadna),
      (∀ a ∈ h.Areas, 1 < (relationToPolygon h a).length) →
      (∀ w ∈ h.Districts, 1 < (wayToPolygon h w).length) →
      (areasToPolygons h cfg).isSome = true) := by
  constructor
  · intro ring p hlen
    simp [Contains, hlen]
  · intro h cfg hA hD
    rw [build_eq h cfg hA hD]
    rfl

/-- Witness for C3 (amended) on the two-point district fixture. -/
theorem c3_amended_witness :
    Contains [NewPoint 0 0, NewPoint 0 10] (NewPoint 5 5) = false ∧
    (areasToPolygons h3b cfgX).isSome = true :=
  ⟨c3_amended.1 _ _ (by decide), c3_amended.2 h3b cfgX (by decide) (by decide)⟩

/-- C4 counterexample: two settlements "S1" and "S2" whose polygons both
contain district "D"'s second ring point each get "D" in their child
list — the district is attached to two different settlements, not only
to the first containing one. -/
theorem c4_counterexample :
    (areasToPolygons exHandler cfgX).map
        (fun r => r.1.map fun c => c.towns.map fun s => (s.name, s.districts)) =
      some [[("S1", [dD]), ("S2", [dD])]] :=
  rfl

/-- C4 amended: the hierarchy is not a strict tree — a district is
attached to every settlement whose polygon contains its second ring
point, so within each country it appears under exactly as many
settlements as contain that point (possibly several). -/
theorem c4_amended (h : Handler) (cfg : Ariadna)
    (res : List country × List DebugFile)
    (hA : ∀ a ∈ h.Areas, 1 < (relationToPolygon h a).length)
    (hD : ∀ w ∈ h.Districts, 1 < (wayToPolygon h w).length)
    (hres : areasToPolygons h cfg = some res) :
    ∀ c ∈ res.1, ∀ w ∈ h.Districts,
      c.towns.countP (fun s => decide (mkDistrict h w ∈ s.districts)) =
        c.towns.countP (fun s => Contains s.geom (secondPointD (wayToPolygon h w))) := by
  rw [build_eq h cfg hA hD, Option.some.injEq] at hres
  subst hres
  intro c hc w hw
  rcases List.mem_map.1 hc with ⟨cn, hcn, rfl⟩
  refine List.countP_congr fun s hs => ?_
  have hs' : s ∈ attachedCities h (relationToPolygon h cn) h.Areas := hs
  rcases List.mem_map.1 hs' with ⟨a', ha', rfl⟩
  rw [decide_eq_true_eq]
  exact mem_attachedDistricts h (relationToPolygon h a') h.Districts w hw

/-- Witness for C4 (amended) on the main fixture. -/
theorem c4_amended_witness :
    areasToPolygons exHandler cfgX = some exRes ∧
    ∀ c ∈ exRes.1, ∀ w ∈ exHandler.Districts,
      c.towns.countP (fun s => decide (mkDistrict exHandler w ∈ s.districts)) =
        c.towns.countP
          (fun s => Contains s.geom (secondPointD (wayToPolygon exHandler w))) :=
  ⟨by decide, c4_amended exHandler cfgX exRes (by decide) (by decide) (by decide)⟩

/-- C5: `relationToPolygon` concatenates, in member order, each member's
resolved point sequence — a member resolving as a point contributes that
single point, a member resolving as a known path contributes one point
per path node in path order, and a member that is neither contributes
nothing; no re-ordering, closing, or de-duplication is applied. -/
theorem c5_relation_assembly (h : Handler) (rel : Relation) :
    relationToPolygon h rel = rel.Members.flatMap (memberPoints h) ∧
    (∀ (m : Member) (n : Node), h.Nodes m.ID = some n →
      memberPoints h m = [NewPoint n.Lat n.Lon]) ∧
    (∀ (m : Member) (w : Way), h.Nodes m.ID = none → h.FullWays m.ID = some w →
      memberPoints h m = w.NodeIDs.map (nodePoint h)) ∧
    (∀ m : Member, h.Nodes m.ID = none → h.FullWays m.ID = none →
      memberPoints h m = []) := by
  refine ⟨relationToPolygon_eq h rel, ?_, ?_, ?_⟩
  · intro m n hn
    simp [memberPoints, hn]
  · intro m w hn hw
    simp [memberPoints, hn, hw]
  · intro m hn hw
    simp [memberPoints, hn, hw, zeroWay]

/-- Witness for C5: members [pointRef(P), unresolved(999), pathRef(A,B)]
assemble to exactly [P, A, B]. -/
theorem c5_relation_assembly_witness :
    relationToPolygon h5 rel5 = [NewPoint 1 2, NewPoint 3 4, NewPoint 5 6] ∧
    h5.Nodes 999 = none ∧ h5.FullWays 999 = none := by
  refine ⟨?_, rfl, rfl⟩
  rw [(c5_relation_assembly h5 rel5).1]
  decide

/-- C6 counterexample: a node reference absent from the accumulator is
not skipped — it contributes a point (the zero point) to the assembled
ring, so a way whose only reference is unresolvable yields a one-point
ring, not an empty one. -/
theorem c6_counterexample :
    h6.Nodes 42 = none ∧ wayToPolygon h6 way42 = [NewPoint 0 0] :=
  ⟨rfl, rfl⟩

/-- C6 amended: an unresolved node reference contributes the zero point
(latitude 0, longitude 0) instead of being skipped; the assembly is
total — it neither faults nor drops entries, producing one point per
reference. -/
theorem c6_amended (h : Handler) (w : Way) (nid : Int)
    (hmem : nid ∈ w.NodeIDs) (hn : h.Nodes nid = none) :
    NewPoint 0 0 ∈ wayToPolygon h w ∧
    (wayToPolygon h w).length = w.NodeIDs.length := by
  constructor
  · rw [wayToPolygon_eq]
    refine List.mem_map.2 ⟨nid, hmem, ?_⟩
    simp [nodePoint, hn, NewPoint]
  · rw [wayToPolygon_eq]
    simp

/-- Witness for C6 (amended) on the empty accumulator. -/
theorem c6_amended_witness :
    NewPoint 0 0 ∈ wayToPolygon h6 way42 ∧
    (wayToPolygon h6 way42).length = way42.NodeIDs.length :=
  c6_amended h6 way42 42 (by decide) rfl

/-- C7: a successful build creates exactly one debug file per
materialized country, named after the country's name tag, containing one
line per boundary-ring point in ring order, each line being the point's
longitude, a comma, the point's latitude, and a newline. -/
theorem c7_debug_export (h : Handler) (cfg : Ariadna)
    (res : List country × List DebugFile)
    (hA : ∀ a ∈ h.Areas, 1 < (relationToPolygon h a).length)
    (hD : ∀ w ∈ h.Districts, 1 < (wayToPolygon h w).length)
    (hres : areasToPolygons h cfg = some res) :
    res.2 = (matchedCountries h cfg).map (mkFile h) ∧
    (∀ cn : Relation,
      mkFile h cn = ⟨cn.Tags "name", (relationToPolygon h cn).map pointLine⟩) ∧
    (∀ p : Point, pointLine p = toString p.Lng ++ "," ++ toString p.Lat ++ "\n") := by
  rw [build_eq h cfg hA hD, Option.some.injEq] at hres
  subst hres
  refine ⟨rfl, fun cn => ?_, fun p => rfl⟩
  rw [mkFile, exportContent_eq]

/-- Witness for C7 on the main fixture: the single country "X" gets one
file named "X" with its four ring points as longitude,latitude lines. -/
theorem c7_debug_export_witness :
    exRes.2 = (matchedCountries exHandler cfgX).map (mkFile exHandler) ∧
    mkFile exHandler relX =
      ⟨"X", ["-100,-100\n", "100,-100\n", "100,100\n", "-100,100\n"]⟩ := by
  obtain ⟨h1, h2, _⟩ :=
    c7_debug_export exHandler cfgX exRes (by decide) (by decide) (by decide)
  refine ⟨h1, ?_⟩
  rw [h2 relX]
  decide

/-- C8 counterexample: two country-classified relations both named "X"
under configuration "X" produce two countries in one run — the
hierarchy is not limited to at most one country. -/
theorem c8_counterexample :
    (areasToPolygons hDup cfgX).map (fun r => r.1.length) = some 2 :=
  rfl

/-- C8 amended: a country is materialized exactly for the country
relations whose name tag equals the configured import country — one
country per matching relation (so several when relations share the
configured name), and every materialized country carries that name. -/
theorem c8_amended (h : Handler) (cfg : Ariadna)
    (res : List country × List DebugFile)
    (hA : ∀ a ∈ h.Areas, 1 < (relationToPolygon h a).length)
    (hD : ∀ w ∈ h.Districts, 1 < (wayToPolygon h w).length)
    (hres : areasToPolygons h cfg = some res) :
    res.1.length = (matchedCountries h cfg).length ∧
    ∀ c ∈ res.1, c.name = cfg.ImportCountry := by
  rw [build_eq h cfg hA hD, Option.some.injEq] at hres
  subst hres
  constructor
  · simp
  · intro c hc
    rcases List.mem_map.1 hc with ⟨cn, hcn, rfl⟩
    rcases List.mem_filter.1 hcn with ⟨_, hname⟩
    exact eq_of_beq hname

/-- Witness for C8 (amended) on the duplicate-name fixture. -/
theorem c8_amended_witness :
    resDup.1.length = (matchedCountries hDup cfgX).length ∧
    ∀ c ∈ resDup.1, c.name = cfgX.ImportCountry :=
  c8_amended hDup cfgX resDup (by decide) (by decide) (by decide)

/-- C9: the build is deterministic — two runs over accumulators with
identical contents (the classified groups being ordered lists, pointwise
equal lookup tables) and equal configuration produce structurally
identical hierarchies and debug exports. -/
theorem c9_deterministic (h1 h2 : Handler) (cfg1 cfg2 : Ariadna)
    (hN : ∀ k, h1.Nodes k = h2.Nodes k)
    (hW : ∀ k, h1.FullWays k = h2.FullWays k)
    (hC : h1.Countries = h2.Countries)
    (hA : h1.Areas = h2.Areas)
    (hD : h1.Districts = h2.Districts)
    (hcfg : cfg1.ImportCountry = cfg2.ImportCountry) :
    areasToPolygons h1 cfg1 = areasToPolygons h2 cfg2 := by
  obtain ⟨n1, w1, c1, a1, d1⟩ := h1
  obtain ⟨n2, w2, c2, a2, d2⟩ := h2
  obtain ⟨i1⟩ := cfg1
  obtain ⟨i2⟩ := cfg2
  have hh : (⟨n1, w1, c1, a1, d1⟩ : Handler) = ⟨n2, w2, c2, a2, d2⟩ := by
    rw [Handler.mk.injEq]
    exact ⟨funext hN, funext hW, hC, hA, hD⟩
  have hc : (⟨i1⟩ : Ariadna) = ⟨i2⟩ := by
    rw [Ariadna.mk.injEq]
    exact hcfg
  rw [hh, hc]

/-- Witness for C9 on the main fixture. -/
theorem c9_deterministic_witness :
    areasToPolygons exHandler cfgX = areasToPolygons exHandler cfgX :=
  c9_deterministic exHandler exHandler cfgX cfgX
    (fun _ => rfl) (fun _ => rfl) rfl rfl rfl rfl

/-- C10: `wayToPolygon` produces exactly one point per entry of the
way's node-reference list, in list order, a reference absent from the
accumulator's node collection contributing the zero point
(latitude 0, longitude 0) rather than being omitted. -/
theorem c10_way_assembly (h : Handler) (w : Way) :
    wayToPolygon h w = w.NodeIDs.map (nodePoint h) ∧
    ∀ nid : Int, h.Nodes nid = none → nodePoint h nid = NewPoint 0 0 :=
  ⟨wayToPolygon_eq h w, fun _ hn => by simp [nodePoint, hn]⟩

/-- Witness for C10 on the empty accumulator. -/
theorem c10_way_assembly_witness :
    wayToPolygon h6 way42 = way42.NodeIDs.map (nodePoint h6) ∧
    nodePoint h6 42 = NewPoint 0 0 :=
  ⟨(c10_way_assembly h6 way42).1, (c10_way_assembly h6 way42).2 42 rfl⟩
